import Mathlib

/-!
Shallow embedding of the resumable chunked-upload engine of share-rs
(src/util.rs, src/backend/db/repository.rs, src/backend/web/handlers/uploads.rs).

Modelling conventions:
* File bytes are `List Nat`; the filesystem is an association list from path
  strings to byte lists (first binding wins, writes are canonicalising).
* SHA-256 is an uninterpreted digest parameter `hashFn : Bytes → String`
  (`compute_file_hash` in the source streams the file through `sha2::Sha256`
  and hex-formats the digest); every claim depends only on digest comparison,
  never on the internals of SHA-256.
* Database rows are Lean structures mirroring the SeaORM models; the chunk
  table keeps rows in insertion (rowid/autoincrement) order, which is the
  order an unordered SeaORM `find().all()` returns them in SQLite.
* Fallible I/O: reads of a missing file are `none`; all other I/O and DB
  operations are modelled on their success path, except `delete_upload_item`
  whose two sequential DB statements get an explicit success/failure switch
  (the source runs them on the raw connection with no transaction).
-/

namespace ShareRs

/-- File contents as a byte sequence. -/
abbrev Bytes := List Nat

/-- Filesystem: association list from path to contents; first binding wins. -/
abbrev FS := List (String × Bytes)

/-- Read a file's bytes; `none` when no file exists at the path. -/
def read_file (fs : FS) (p : String) : Option Bytes :=
  (fs.find? (fun e => e.1 = p)).map (·.2)

/-- Create/overwrite the file at `p` with `data` (source: `File::create`,
`async_fs::copy` onto the destination, `write_all`). -/
def write_file (fs : FS) (p : String) (data : Bytes) : FS :=
  (p, data) :: fs.filter (fun e => ¬ e.1 = p)

/-- `util::delete_file_if_exists` / `async_fs::remove_file`: drop the binding. -/
def delete_file (fs : FS) (p : String) : FS :=
  fs.filter (fun e => ¬ e.1 = p)

/-- `async_fs::remove_dir_all dir`: drop every file strictly below `dir`
(prefix comparison on the character data). -/
def remove_dir_all (fs : FS) (dir : String) : FS :=
  fs.filter (fun e => ¬ (dir ++ "/").data.isPrefixOf e.1.data)

/-- `util::exists_file`: a regular file exists at the path. -/
def exists_file (fs : FS) (p : String) : Bool :=
  (read_file fs p).isSome

/-- `util::compute_file_hash`: stream the file through SHA-256 (the digest
function is the uninterpreted parameter `hashFn`); `none` is the `IOError`
case of a missing file. -/
def compute_file_hash (hashFn : Bytes → String) (fs : FS) (p : String) :
    Option String :=
  (read_file fs p).map hashFn

/-- `util::check_file_hash`: `Ok(file_hash == expected_hash)`, `Err` (here
`none`) only on I/O failure.  NOTE the source returns the comparison as a
`bool` inside `Ok`; whether callers look at that bool is their business. -/
def check_file_hash (hashFn : Bytes → String) (fs : FS) (p : String)
    (expected_hash : String) : Option Bool :=
  (compute_file_hash hashFn fs p).map (fun h => h = expected_hash)

/-- `util::CheckFileResult`. -/
inductive CheckFileResult where
  | Valid : CheckFileResult
  | Invalid : String → CheckFileResult
deriving DecidableEq, Repr

/-- `util::check_file`: `Invalid("File not found")` when the file is absent,
`Invalid("Hash mismatch, expected: X, actual:Y")` when the digest differs,
`Valid` otherwise.  A mismatch is an `Ok` outcome in the source, never an
error; the model therefore returns `CheckFileResult` directly. -/
def check_file (hashFn : Bytes → String) (fs : FS) (file_path : String)
    (expected_hash : String) : CheckFileResult :=
  match read_file fs file_path with
  | none => .Invalid "File not found"
  | some data =>
    let hash := hashFn data
    if hash = expected_hash then .Valid
    else .Invalid ("Hash mismatch, expected: " ++ expected_hash ++ ", actual:" ++ hash)

/-- `chunks::Model` (repository.rs re-export `Chunk`): autoincrement id,
owning session id, 1-based chunk number, byte size, expected chunk hash. -/
structure Chunk where
  id : Nat
  upload_id : String
  chunk_number : Int
  chunk_size : Int
  chunk_hash : String
deriving DecidableEq, Repr

/-- `uploads::Model` (repository.rs re-export `UploadItem`): keyed by the
content hash, with declared name/size, resolved destination path, status
string and creation time. -/
structure UploadItem where
  id : String
  file_name : String
  file_size : Int
  file_path : String
  status : String
  created_at : Nat
deriving DecidableEq, Repr

/-- Database state: the uploads table, the chunks table in rowid (insertion)
order, and the next autoincrement chunk id. -/
structure Db where
  uploads : List UploadItem
  chunks : List Chunk
  next_chunk_id : Nat
deriving DecidableEq, Repr

/-- `repository::get_upload_item`: find-by-primary-key. -/
def get_upload_item (db : Db) (upload_id : String) : Option UploadItem :=
  db.uploads.find? (fun u => u.id = upload_id)

/-- `repository::insert_upload_item`. -/
def insert_upload_item (db : Db) (item : UploadItem) : Db :=
  { db with uploads := db.uploads ++ [item] }

/-- `repository::update_upload_item`; the only call site updates the status
column of the row with the given primary key. -/
def update_upload_item (db : Db) (upload_id : String) (status : String) : Db :=
  { db with uploads :=
      db.uploads.map (fun u => if u.id = upload_id then { u with status := status } else u) }

/-- `repository::insert_chunk`: the id column is `not_set`, so the row gets
the next autoincrement id and is appended in rowid order. -/
def insert_chunk (db : Db) (c : Chunk) : Db :=
  { db with
      chunks := db.chunks ++ [{ c with id := db.next_chunk_id }],
      next_chunk_id := db.next_chunk_id + 1 }

/-- `repository::get_upload_chunks`: unordered filter by `upload_id`; SQLite
returns the rows in rowid (insertion) order, there is no ORDER BY. -/
def get_upload_chunks (db : Db) (upload_id : String) : List Chunk :=
  db.chunks.filter (fun c => c.upload_id = upload_id)

/-- `repository::get_chunk_by_number`: filter by session and number, `.one()`. -/
def get_chunk_by_number (db : Db) (upload_id : String) (chunk_number : Int) :
    Option Chunk :=
  db.chunks.find? (fun c => c.upload_id = upload_id ∧ c.chunk_number = chunk_number)

/-- `repository::delete_chunk_by_id`. -/
def delete_chunk_by_id (db : Db) (chunk_id : Nat) : Db :=
  { db with chunks := db.chunks.filter (fun c => ¬ c.id = chunk_id) }

/-- `repository::delete_upload_item`: two sequential `delete_many` statements
on the raw connection — chunks first, then the session row — with NO
transaction.  `chunksDelOk` / `uploadDelOk` say whether each statement
succeeds; a failed statement leaves its rows untouched and returns the
context message, but the effect of an already-executed statement persists. -/
def delete_upload_item_run (db : Db) (upload_id : String)
    (chunksDelOk uploadDelOk : Bool) : Db × Option String :=
  if ¬ chunksDelOk then (db, some "Failed to delete existing chunks")
  else
    let db1 : Db := { db with chunks := db.chunks.filter (fun c => ¬ c.upload_id = upload_id) }
    if ¬ uploadDelOk then (db1, some "Failed to delete existing upload item")
    else ({ db1 with uploads := db1.uploads.filter (fun u => ¬ u.id = upload_id) }, none)

/-- `repository::delete_upload_item` on the success path of both statements. -/
def delete_upload_item (db : Db) (upload_id : String) : Db :=
  (delete_upload_item_run db upload_id true true).1

/-- `uploads.rs` `UploadStatus`. -/
inductive UploadStatus where
  | Uploading : UploadStatus
  | Completed : UploadStatus
deriving DecidableEq, Repr

/-- `strum::Display` for `UploadStatus`. -/
def UploadStatus.toDbString : UploadStatus → String
  | .Uploading => "Uploading"
  | .Completed => "Completed"

/-- `strum::EnumString` (`UploadStatus::from_str`): `none` is the `Err` case. -/
def UploadStatus.fromDbString (s : String) : Option UploadStatus :=
  if s = "Uploading" then some .Uploading
  else if s = "Completed" then some .Completed
  else none

/-- `InitUploadResponse` of `uploads.rs`. -/
structure InitUploadResponse where
  file_id : String
  status : UploadStatus
  uploaded_chunks : List Int
  uploaded_size : Int
deriving DecidableEq, Repr

/-- The `HttpResponse` shapes the upload handlers produce. -/
inductive Resp where
  | okJson : InitUploadResponse → Resp
  | okBody : String → Resp
  | badRequest : String → Resp
  | notFound : String → Resp
  | internalError : String → Resp
deriving DecidableEq, Repr

/-- Joint server state: database plus filesystem. -/
structure St where
  db : Db
  fs : FS
deriving DecidableEq, Repr

/-- `get_chunk_file`: `upload_dir.join(format!("{CHUNK_FILE_PREFIX}{n}"))`
with CHUNK_FILE_PREFIX = "chunk_". -/
def get_chunk_file (upload_dir : String) (chunk_number : Int) : String :=
  upload_dir ++ "/" ++ ("chunk_" ++ toString chunk_number)

/-- Split a path at its last `/` into parent and file name
(`Path::parent` defaulting to `"."`, and the file-name component). -/
def path_parent_and_name (path : String) : String × String :=
  let parts := path.splitOn "/"
  match parts with
  | [] => (".", path)
  | [only] => (".", only)
  | _ => (String.intercalate "/" parts.dropLast, parts.getLastD "")

/-- Split a file name into `Path::file_stem` and the `.ext` suffix
(`".{ext}"` as formatted by the source, empty when there is no extension;
a name whose only dot is a leading dot has no extension). -/
def split_stem_ext (name : String) : String × String :=
  let parts := name.splitOn "."
  match parts with
  | [] => (name, "")
  | [_] => (name, "")
  | _ =>
    if name.startsWith "." ∧ parts.length = 2 then (name, "")
    else (String.intercalate "." parts.dropLast, "." ++ parts.getLastD "")

/-- The numbered-candidate loop of `util::get_available_filename`: try
`stem(counter)ext` for counter = 1, 2, ….  The source loops until a free
name is found; the model carries fuel `fs.length + 1`, which is enough
because at most `fs.length` distinct paths are occupied. -/
def avail_probe (fs : FS) (parent stem ext : String) : Nat → Nat → String
  | 0, counter => parent ++ "/" ++ (stem ++ "(" ++ toString counter ++ ")" ++ ext)
  | fuel + 1, counter =>
    let cand := parent ++ "/" ++ (stem ++ "(" ++ toString counter ++ ")" ++ ext)
    if exists_file fs cand then avail_probe fs parent stem ext fuel (counter + 1)
    else cand

/-- `util::get_available_filename`: the path itself when free, otherwise the
first free `stem(counter)ext` sibling. -/
def get_available_filename (fs : FS) (path : String) : String :=
  if exists_file fs path then
    let pn := path_parent_and_name path
    let se := split_stem_ext pn.2
    avail_probe fs pn.1 se.1 se.2 (fs.length + 1) 1
  else path

/-- `create_upload_item`: resolve a non-colliding destination path and insert
a fresh `Uploading` session keyed by the content hash; returns the new db and
the inserted row. -/
def create_upload_item (st : St) (storage_folder file_name : String)
    (file_size : Int) (file_hash : String) (now : Nat) : Db × UploadItem :=
  let file_path := get_available_filename st.fs (storage_folder ++ "/" ++ file_name)
  let item : UploadItem :=
    { id := file_hash, file_name := file_name, file_size := file_size,
      file_path := file_path, status := UploadStatus.Uploading.toDbString,
      created_at := now }
  (insert_upload_item st.db item, item)

/-- `check_and_clean_invalid_chunks`: walk the fetched chunk rows; a row whose
on-disk file checks `Valid` is kept, otherwise the temp file (if present) and
the database row are deleted. -/
def check_and_clean_invalid_chunks (hashFn : Bytes → String) (st : St)
    (upload_dir : String) : List Chunk → St × List Chunk
  | [] => (st, [])
  | c :: rest =>
    let chunk_path := get_chunk_file upload_dir c.chunk_number
    match check_file hashFn st.fs chunk_path c.chunk_hash with
    | .Valid =>
      let r := check_and_clean_invalid_chunks hashFn st upload_dir rest
      (r.1, c :: r.2)
    | .Invalid _ =>
      let st1 : St :=
        { db := delete_chunk_by_id st.db c.id, fs := delete_file st.fs chunk_path }
      check_and_clean_invalid_chunks hashFn st1 upload_dir rest

/-- `handle_completed_upload`: re-verify the destination file against the
content hash; `Valid` answers Completed with the declared size, `Invalid`
deletes the stale session (and chunk rows) and re-creates a fresh one. -/
def handle_completed_upload (hashFn : Bytes → String) (st : St)
    (item : UploadItem) (storage_folder file_name : String) (file_size : Int)
    (file_hash : String) (now : Nat) : St × Resp :=
  match check_file hashFn st.fs item.file_path item.id with
  | .Valid =>
    (st, .okJson { file_id := item.id, status := .Completed,
                   uploaded_chunks := [], uploaded_size := item.file_size })
  | .Invalid _ =>
    let db1 := delete_upload_item st.db item.id
    let r := create_upload_item { db := db1, fs := st.fs } storage_folder
               file_name file_size file_hash now
    ({ db := r.1, fs := st.fs },
     .okJson { file_id := r.2.id, status := .Uploading,
               uploaded_chunks := [], uploaded_size := 0 })

/-- `handle_uploading_upload`: prune invalid chunks and report the kept
chunk numbers (in the order the rows came back — no sort in the source) and
their summed byte size. -/
def handle_uploading_upload (hashFn : Bytes → String) (st : St)
    (item : UploadItem) (storage_folder : String) : St × Resp :=
  let upload_dir := storage_folder ++ "/" ++ item.id
  let chunks := get_upload_chunks st.db item.id
  let r := check_and_clean_invalid_chunks hashFn st upload_dir chunks
  (r.1, .okJson { file_id := item.id, status := .Uploading,
                  uploaded_chunks := r.2.map (·.chunk_number),
                  uploaded_size := (r.2.map (·.chunk_size)).sum })

/-- `init_upload` endpoint. -/
def init_upload (hashFn : Bytes → String) (storage_folder : String) (st : St)
    (file_name : String) (file_size : Int) (file_hash : String) (now : Nat) :
    St × Resp :=
  match get_upload_item st.db file_hash with
  | some item =>
    match UploadStatus.fromDbString item.status with
    | none => (st, .internalError "Invalid upload status")
    | some .Completed =>
      handle_completed_upload hashFn st item storage_folder file_name file_size
        file_hash now
    | some .Uploading => handle_uploading_upload hashFn st item storage_folder
  | none =>
    let r := create_upload_item st storage_folder file_name file_size file_hash now
    ({ st with db := r.1 },
     .okJson { file_id := r.2.id, status := .Uploading,
               uploaded_chunks := [], uploaded_size := 0 })

/-- Tail of `upload_chunk` (lines 337–372): persist the incoming bytes to the
chunk path, run `check_file_hash`, and insert the chunk row.  The source
writes `if let Err(e) = check_file_hash(..)`: ONLY the I/O-error case deletes
the file and answers BadRequest — the `Ok(bool)` comparison outcome is
discarded, so a hash mismatch (`Ok(false)`) still falls through to the
insert. -/
def save_chunk (hashFn : Bytes → String) (st : St) (file : Bytes)
    (file_id : String) (chunk_number : Int) (chunk_hash : String)
    (chunk_path : String) : St × Resp :=
  let fs1 := write_file st.fs chunk_path file
  match check_file_hash hashFn fs1 chunk_path chunk_hash with
  | none =>
    ({ st with fs := delete_file fs1 chunk_path },
     .badRequest "Chunk hash verification failed")
  | some _matches =>
    let c : Chunk :=
      { id := 0, upload_id := file_id, chunk_number := chunk_number,
        chunk_size := (file.length : Int), chunk_hash := chunk_hash }
    ({ db := insert_chunk st.db c, fs := fs1 },
     .okBody "Chunk uploaded successfully")

/-- `upload_chunk` endpoint (success path of the DB queries; the source's
log-and-continue `Err` branch of `get_chunk_by_number` is the same as the
`Ok(None)` fallthrough without the leftover-file delete). -/
def upload_chunk (hashFn : Bytes → String) (storage_folder : String) (st : St)
    (file : Bytes) (file_id : String) (chunk_number : Int)
    (chunk_hash : String) : St × Resp :=
  if file_id = "" ∨ chunk_number ≤ 0 then
    (st, .badRequest "Missing or invalid required fields")
  else
    match get_upload_item st.db file_id with
    | none => (st, .notFound "Upload item not found")
    | some item =>
      if UploadStatus.fromDbString item.status = some .Completed then
        (st, .badRequest "File already completed")
      else
        let upload_dir := storage_folder ++ "/" ++ file_id
        let chunk_path := get_chunk_file upload_dir chunk_number
        match get_chunk_by_number st.db file_id chunk_number with
        | some chunk =>
          match check_file hashFn st.fs chunk_path chunk.chunk_hash with
          | .Valid => (st, .okBody "Chunk already uploaded")
          | .Invalid _ =>
            let st1 : St :=
              { db := delete_chunk_by_id st.db chunk.id,
                fs := delete_file st.fs chunk_path }
            save_chunk hashFn st1 file file_id chunk_number chunk_hash chunk_path
        | none =>
          let st1 : St := { st with fs := delete_file st.fs chunk_path }
          save_chunk hashFn st1 file file_id chunk_number chunk_hash chunk_path

/-- The comparison of `chunks.sort_by(|x, y| x.chunk_number.cmp(&y.chunk_number))`. -/
def chunkLE (a b : Chunk) : Prop := a.chunk_number ≤ b.chunk_number

instance : DecidableRel chunkLE := fun a b => Int.decLe a.chunk_number b.chunk_number

instance : IsTotal Chunk chunkLE := ⟨fun a b => Int.le_total a.chunk_number b.chunk_number⟩

instance : IsTrans Chunk chunkLE := ⟨fun _ _ _ h1 h2 => Int.le_trans h1 h2⟩

/-- `chunks.sort_by(|x, y| x.chunk_number.cmp(&y.chunk_number))`: Rust's
stable sort, modelled by the stable `List.insertionSort`. -/
def sortChunks (chunks : List Chunk) : List Chunk :=
  chunks.insertionSort chunkLE

/-- The `anyhow!("File size mismatch, …")` message of `merge_chunks`. -/
def size_mismatch_msg (expected actual : Int) : String :=
  "File size mismatch, expected: " ++ toString expected ++ ", actual: " ++ toString actual

/-- The copy loop of `merge_chunks`: for each chunk in order, fail with
`"Chunk file not found"` if the file is absent, add its on-disk length to the
running total, fail with `"File size exceeds expected size"` if the total
overshoots, else append the bytes to the output file. -/
def merge_loop (fs : FS) (upload_dir output_path : String) (expected : Int) :
    List Chunk → Int → FS × Except String Int
  | [], total => (fs, .ok total)
  | c :: rest, total =>
    let chunk_path := get_chunk_file upload_dir c.chunk_number
    match read_file fs chunk_path with
    | none => (fs, .error "Chunk file not found")
    | some chunk_data =>
      let total1 := total + (chunk_data.length : Int)
      if expected < total1 then (fs, .error "File size exceeds expected size")
      else
        let fs1 := write_file fs output_path
                     ((read_file fs output_path).getD [] ++ chunk_data)
        merge_loop fs1 upload_dir output_path expected rest total1

/-- `merge_chunks`: `File::create` (truncating) the destination FIRST, then
fetch and sort the chunk rows, compare the summed stored sizes to the
declared size, run the copy loop, re-compare the copied total, and finally
run `check_file_hash(&output_path, &upload_item.id).await?` — the `?` only
propagates the I/O `Err`; the `Ok(bool)` digest comparison is discarded, so
a final-hash mismatch does not abort the merge. -/
def merge_chunks (hashFn : Bytes → String) (st : St) (item : UploadItem)
    (upload_dir : String) : St × Except String String :=
  let output_path := item.file_path
  let expected := item.file_size
  let fs0 := write_file st.fs output_path []
  let chunks := sortChunks (get_upload_chunks st.db item.id)
  let total_size : Int := (chunks.map (·.chunk_size)).sum
  if ¬ total_size = expected then
    ({ st with fs := fs0 }, .error (size_mismatch_msg expected total_size))
  else
    match merge_loop fs0 upload_dir output_path expected chunks 0 with
    | (fs1, .error e) => ({ st with fs := fs1 }, .error e)
    | (fs1, .ok total) =>
      if ¬ total = expected then
        ({ st with fs := fs1 }, .error (size_mismatch_msg expected total))
      else
        match check_file_hash hashFn fs1 output_path item.id with
        | none => ({ st with fs := fs1 }, .error "Failed to check file hash")
        | some _matches => ({ st with fs := fs1 }, .ok output_path)

/-- `complete_upload` endpoint: look the session up (no status check!), merge,
then mark the session Completed and best-effort remove the temp chunk
directory. -/
def complete_upload (hashFn : Bytes → String) (storage_folder : String)
    (st : St) (file_id : String) : St × Resp :=
  match get_upload_item st.db file_id with
  | none => (st, .notFound "File not found")
  | some item =>
    let upload_dir := storage_folder ++ "/" ++ item.id
    match merge_chunks hashFn st item upload_dir with
    | (st1, .error _) => (st1, .internalError "Failed to merge chunks")
    | (st1, .ok _) =>
      let db2 := update_upload_item st1.db item.id UploadStatus.Completed.toDbString
      let fs2 := remove_dir_all st1.fs upload_dir
      ({ db := db2, fs := fs2 }, .okBody "File uploaded and verified successfully")

/-- A chunk row is valid when its on-disk file checks `Valid` against the
recorded chunk hash (the keep-condition of `check_and_clean_invalid_chunks`). -/
def chunk_ok (hashFn : Bytes → String) (fs : FS) (upload_dir : String) (c : Chunk) : Bool :=
  check_file hashFn fs (get_chunk_file upload_dir c.chunk_number) c.chunk_hash = .Valid

/-- The bytes of a chunk's on-disk file (defaulting to `[]`; only used where
the file is known to exist). -/
def chunk_bytes (fs : FS) (upload_dir : String) (c : Chunk) : Bytes :=
  (read_file fs (get_chunk_file upload_dir c.chunk_number)).getD []

/-! ### Concrete fixtures used by witnesses and counterexamples -/

/-- A concrete digest function for concrete runs (the digest function is a
parameter of the model; claims depend only on digest comparison). -/
def hashStub : Bytes → String := fun b =>
  if b = [5] then "h5"
  else if b = [6] then "h6"
  else if b = [6, 6] then "h66"
  else if b = [7] then "g"
  else if b = [9] then "x9"
  else "z"

/-- Fresh `Uploading` session `s` (declared size 1, destination `out`), no chunks. -/
def stC1 : St :=
  { db := { uploads := [⟨"s", "f", 1, "out", "Uploading", 0⟩], chunks := [], next_chunk_id := 1 },
    fs := [] }

/-- Session `s` (declared size 1) with one persisted chunk whose file is on disk. -/
def stC2 : St :=
  { db := { uploads := [⟨"s", "f", 1, "out", "Uploading", 0⟩],
            chunks := [⟨1, "s", 1, 1, "h5"⟩], next_chunk_id := 2 },
    fs := [("st/s/chunk_1", [7])] }

/-- Session `s` (declared size 3) with chunks 2 and 1 uploaded in that order. -/
def stC3 : St :=
  { db := { uploads := [⟨"s", "f", 3, "out", "Uploading", 0⟩],
            chunks := [⟨1, "s", 2, 2, "h66"⟩, ⟨2, "s", 1, 1, "h5"⟩], next_chunk_id := 3 },
    fs := [("st/s/chunk_1", [5]), ("st/s/chunk_2", [6, 6])] }

/-- Session `s` declaring size 2 while its chunks sum to 1. -/
def stC4 : St :=
  { db := { uploads := [⟨"s", "f", 2, "out", "Uploading", 0⟩],
            chunks := [⟨1, "s", 1, 1, "h5"⟩], next_chunk_id := 2 },
    fs := [("st/s/chunk_1", [5])] }

/-- State after session `s` completed successfully: status Completed, merged
destination `out` on disk, chunk rows still in the database, temp chunk files
removed. -/
def stC5 : St :=
  { db := { uploads := [⟨"s", "f", 1, "out", "Completed", 0⟩],
            chunks := [⟨1, "s", 1, 1, "h5"⟩], next_chunk_id := 2 },
    fs := [("out", [7])] }

/-- Uploading session `s` whose chunk rows were inserted out of order:
chunk 2 first (rowid 1), chunk 1 second (rowid 2); both files valid. -/
def stC6 : St :=
  { db := { uploads := [⟨"s", "f", 2, "out", "Uploading", 0⟩],
            chunks := [⟨1, "s", 2, 1, "h6"⟩, ⟨2, "s", 1, 1, "h5"⟩], next_chunk_id := 3 },
    fs := [("st/s/chunk_1", [5]), ("st/s/chunk_2", [6])] }

/-- Uploading session `s` with valid chunks 1, 2 and a corrupted chunk 3
(file bytes `[9]` do not hash to the recorded `h3`). -/
def stC6w : St :=
  { db := { uploads := [⟨"s", "f", 3, "out", "Uploading", 0⟩],
            chunks := [⟨1, "s", 1, 1, "h5"⟩, ⟨2, "s", 2, 1, "h6"⟩, ⟨3, "s", 3, 1, "h3"⟩],
            next_chunk_id := 4 },
    fs := [("st/s/chunk_1", [5]), ("st/s/chunk_2", [6]), ("st/s/chunk_3", [9])] }

/-- Completed session whose destination file still matches the content hash
(`hashStub [7] = "g"` = session id). -/
def stC7 : St :=
  { db := { uploads := [⟨"g", "f", 1, "out", "Completed", 0⟩], chunks := [], next_chunk_id := 1 },
    fs := [("out", [7])] }

/-- Fresh `Uploading` session `s` (declared size 2), no chunks, empty disk. -/
def stC8 : St :=
  { db := { uploads := [⟨"s", "f", 2, "out", "Uploading", 0⟩], chunks := [], next_chunk_id := 1 },
    fs := [] }

/-- One session with one chunk row, for the deletion counterexample. -/
def dbC10 : Db :=
  { uploads := [⟨"s", "f", 1, "out", "Uploading", 0⟩],
    chunks := [⟨1, "s", 1, 1, "h5"⟩], next_chunk_id := 2 }

/-! ### Filesystem helper lemmas -/

theorem read_file_write_file (fs : FS) (p : String) (data : Bytes) (q : String) :
    read_file (write_file fs p data) q = if q = p then some data else read_file fs q := by
  unfold write_file read_file
  by_cases h : q = p
  · subst h
    induction fs with
    | nil => simp [List.find?_cons]
    | cons e fs ih =>
      by_cases he : e.1 = q <;> simp_all [List.find?_cons, List.filter_cons]
  · simp only [List.find?_cons, if_neg h]
    have hpq : ¬ (p = q) := fun hh => h hh.symm
    simp only [decide_eq_true_eq, hpq, if_false]
    induction fs with
    | nil => simp
    | cons e fs ih =>
      by_cases he : e.1 = p
      · have : ¬ e.1 = q := by rw [he]; exact hpq
        simp_all [List.find?_cons, List.filter_cons]
      · by_cases heq : e.1 = q <;> simp_all [List.find?_cons, List.filter_cons]

theorem read_file_delete_file (fs : FS) (p q : String) :
    read_file (delete_file fs p) q = if q = p then none else read_file fs q := by
  unfold delete_file read_file
  by_cases h : q = p
  · subst h
    simp only [if_pos rfl]
    induction fs with
    | nil => simp
    | cons e fs ih =>
      by_cases he : e.1 = q <;> simp_all [List.find?_cons, List.filter_cons]
  · simp only [if_neg h]
    induction fs with
    | nil => simp
    | cons e fs ih =>
      by_cases he : e.1 = p
      · have : ¬ e.1 = q := by rw [he]; intro hh; exact h hh.symm
        simp_all [List.find?_cons, List.filter_cons]
      · by_cases heq : e.1 = q <;> simp_all [List.find?_cons, List.filter_cons]

theorem read_file_remove_dir_all (fs : FS) (d q : String)
    (h : ¬ (d ++ "/").data <+: q.data) :
    read_file (remove_dir_all fs d) q = read_file fs q := by
  unfold remove_dir_all read_file
  induction fs with
  | nil => simp
  | cons e fs ih =>
    by_cases he : e.1 = q
    · subst he
      simp_all [List.find?_cons, List.filter_cons]
    · by_cases hp : (d ++ "/").data <+: e.1.data <;>
        simp_all [List.find?_cons, List.filter_cons]

theorem write_file_write_file (fs : FS) (p : String) (a b : Bytes) :
    write_file (write_file fs p a) p b = write_file fs p b := by
  unfold write_file
  simp [List.filter_cons, List.filter_filter]

theorem read_file_filter_of_keys_kept (fs : FS) (p : String × Bytes → Bool)
    (q : String) (h : ∀ e ∈ fs, e.1 = q → p e = true) :
    read_file (fs.filter p) q = read_file fs q := by
  induction fs with
  | nil => rfl
  | cons e fs ih =>
    have ih' := ih (fun e' he' => h e' (List.mem_cons_of_mem e he'))
    by_cases hk : e.1 = q
    · have hp : p e = true := h e (List.mem_cons_self e fs) hk
      simp [read_file, List.filter_cons, hp, List.find?_cons, hk]
    · by_cases hp : p e = true
      · simpa [read_file, List.filter_cons, hp, List.find?_cons, hk] using ih'
      · simpa [read_file, List.filter_cons, hp, List.find?_cons, hk] using ih'

theorem read_file_filter_of_key_dropped (fs : FS) (p : String × Bytes → Bool)
    (q : String) (h : ∀ e ∈ fs, e.1 = q → p e = false) :
    read_file (fs.filter p) q = none := by
  induction fs with
  | nil => rfl
  | cons e fs ih =>
    have ih' := ih (fun e' he' => h e' (List.mem_cons_of_mem e he'))
    by_cases hk : e.1 = q
    · have hp : p e = false := h e (List.mem_cons_self e fs) hk
      simpa [List.filter_cons, hp] using ih'
    · by_cases hp : p e = true
      · simpa [read_file, List.filter_cons, hp, List.find?_cons, hk] using ih'
      · simpa [List.filter_cons, hp] using ih'

/-! ### Sorting helper lemmas -/

theorem sortChunks_perm (cs : List Chunk) : List.Perm (sortChunks cs) cs :=
  List.perm_insertionSort chunkLE cs

theorem sortChunks_sorted (cs : List Chunk) : (sortChunks cs).Pairwise chunkLE :=
  List.sorted_insertionSort chunkLE cs

theorem mem_sortChunks {c : Chunk} {cs : List Chunk} : c ∈ sortChunks cs ↔ c ∈ cs :=
  (sortChunks_perm cs).mem_iff

theorem sum_sizes_sortChunks (cs : List Chunk) :
    ((sortChunks cs).map (·.chunk_size)).sum = (cs.map (·.chunk_size)).sum :=
  ((sortChunks_perm cs).map (·.chunk_size)).sum_eq

theorem check_file_read_congr (hashFn : Bytes → String) (fs1 fs2 : FS)
    (p h : String) (hr : read_file fs1 p = read_file fs2 p) :
    check_file hashFn fs1 p h = check_file hashFn fs2 p h := by
  unfold check_file
  rw [hr]

theorem complete_upload_eq_of_item (hashFn : Bytes → String)
    (storage_folder : String) (st : St) (file_id : String) (item : UploadItem)
    (hitem : get_upload_item st.db file_id = some item) :
    complete_upload hashFn storage_folder st file_id =
      match merge_chunks hashFn st item (storage_folder ++ "/" ++ item.id) with
      | (st1, .error _) => (st1, .internalError "Failed to merge chunks")
      | (st1, .ok _) =>
        ({ db := update_upload_item st1.db item.id UploadStatus.Completed.toDbString,
           fs := remove_dir_all st1.fs (storage_folder ++ "/" ++ item.id) },
         .okBody "File uploaded and verified successfully") := by
  unfold complete_upload
  rw [hitem]

theorem merge_chunks_size_mismatch (hashFn : Bytes → String) (st : St)
    (item : UploadItem) (d : String)
    (hsum : ¬ ((get_upload_chunks st.db item.id).map (·.chunk_size)).sum = item.file_size) :
    merge_chunks hashFn st item d =
      ({ st with fs := write_file st.fs item.file_path [] },
       .error (size_mismatch_msg item.file_size
         ((get_upload_chunks st.db item.id).map (·.chunk_size)).sum)) := by
  simp only [merge_chunks, sum_sizes_sortChunks]
  rw [if_pos hsum]

theorem check_and_clean_spec (hashFn : Bytes → String) (st : St) (d : String)
    (cs : List Chunk)
    (hpaths : cs.Pairwise (fun a b =>
      ¬ get_chunk_file d a.chunk_number = get_chunk_file d b.chunk_number)) :
    check_and_clean_invalid_chunks hashFn st d cs =
      ({ db := { st.db with chunks := st.db.chunks.filter (fun x =>
           (cs.filter (fun c => !chunk_ok hashFn st.fs d c)).all
             (fun c => ¬ x.id = c.id)) },
         fs := st.fs.filter (fun e =>
           (cs.filter (fun c => !chunk_ok hashFn st.fs d c)).all
             (fun c => ¬ e.1 = get_chunk_file d c.chunk_number)) },
       cs.filter (fun c => chunk_ok hashFn st.fs d c)) := by
  induction cs generalizing st with
  | nil => simp [check_and_clean_invalid_chunks]
  | cons c rest ih =>
    have hpc := (List.pairwise_cons.mp hpaths).1
    have htail := (List.pairwise_cons.mp hpaths).2
    rcases hc : check_file hashFn st.fs (get_chunk_file d c.chunk_number) c.chunk_hash
      with _ | reason
    · have hok : chunk_ok hashFn st.fs d c = true := by simp [chunk_ok, hc]
      simp only [check_and_clean_invalid_chunks, hc]
      rw [ih st htail]
      simp [List.filter_cons, hok]
    · have hok : chunk_ok hashFn st.fs d c = false := by simp [chunk_ok, hc]
      have hcong : ∀ c' ∈ rest,
          chunk_ok hashFn (delete_file st.fs (get_chunk_file d c.chunk_number)) d c' =
            chunk_ok hashFn st.fs d c' := by
        intro c' hc'
        have hr : read_file (delete_file st.fs (get_chunk_file d c.chunk_number))
            (get_chunk_file d c'.chunk_number) =
            read_file st.fs (get_chunk_file d c'.chunk_number) := by
          rw [read_file_delete_file]
          exact if_neg (fun h => hpc c' hc' h.symm)
        unfold chunk_ok
        rw [check_file_read_congr hashFn _ _ _ _ hr]
      simp only [check_and_clean_invalid_chunks, hc]
      rw [ih _ htail]
      dsimp only
      have hbad : rest.filter (fun c' =>
          !chunk_ok hashFn (delete_file st.fs (get_chunk_file d c.chunk_number)) d c') =
          rest.filter (fun c' => !chunk_ok hashFn st.fs d c') :=
        List.filter_congr (fun c' hc' => by rw [hcong c' hc'])
      have hkept : rest.filter (fun c' =>
          chunk_ok hashFn (delete_file st.fs (get_chunk_file d c.chunk_number)) d c') =
          rest.filter (fun c' => chunk_ok hashFn st.fs d c') :=
        List.filter_congr (fun c' hc' => hcong c' hc')
      rw [hbad, hkept]
      simp [delete_chunk_by_id, delete_file, List.filter_cons, hok,
        List.filter_filter, List.all_cons, Bool.and_comm]

/-! ### Claim theorems -/

/-- C9: for every path and expected digest, the integrity check
(`util::check_file`) answers Invalid("File not found") when no file exists
at the path, Invalid naming the expected and actual digests when the file's
digest differs from the expected one, and Valid when they agree; a mismatch
is an ordinary `CheckFileResult` value, never an error (the source's error
channel carries only I/O failures, which the total filesystem model rules
out).  A freshly written file always verifies against the digest of its own
bytes. -/
theorem check_file_spec (hashFn : Bytes → String) (fs : FS) (p expected : String) :
    (read_file fs p = none → check_file hashFn fs p expected = .Invalid "File not found") ∧
    (∀ data, read_file fs p = some data → ¬ hashFn data = expected →
      check_file hashFn fs p expected =
        .Invalid ("Hash mismatch, expected: " ++ expected ++ ", actual:" ++ hashFn data)) ∧
    (∀ data, read_file fs p = some data → hashFn data = expected →
      check_file hashFn fs p expected = .Valid) ∧
    (∀ bytes, check_file hashFn (write_file fs p bytes) p (hashFn bytes) = .Valid) := by
  refine ⟨?_, ?_, ?_, ?_⟩
  · intro h
    simp [check_file, h]
  · intro data h hne
    simp [check_file, h, hne]
  · intro data h he
    simp [check_file, h, he]
  · intro bytes
    simp [check_file, read_file_write_file]

/-- Witness for C9 at concrete inputs: a missing file, a mismatching file, a
matching file, and a freshly written file. -/
theorem check_file_spec_witness :
    check_file hashStub [] "p" "h5" = .Invalid "File not found" ∧
    check_file hashStub [("p", [5])] "p" "h6" =
      .Invalid "Hash mismatch, expected: h6, actual:h5" ∧
    check_file hashStub [("p", [5])] "p" "h5" = .Valid ∧
    check_file hashStub (write_file [] "q" [9]) "q" (hashStub [9]) = .Valid := by
  refine ⟨(check_file_spec hashStub [] "p" "h5").1 rfl, ?_,
    (check_file_spec hashStub [("p", [5])] "p" "h5").2.2.1 [5] rfl (by decide),
    (check_file_spec hashStub [] "q" (hashStub [9])).2.2.2 [9]⟩
  exact ((check_file_spec hashStub [("p", [5])] "p" "h6").2.1 [5] rfl
    (by decide)).trans (by decide)

/-- C10 counterexample: with one session and one chunk row, run the deletion
with the chunk delete succeeding and the session-row delete failing: the
operation reports failure, yet the chunk rows are gone while the session row
survives — partial deletion remains visible, contradicting the claimed
atomicity (`delete_upload_item` issues two sequential deletes with no
transaction). -/
theorem delete_upload_item_chunks_gone_session_left :
    (delete_upload_item_run dbC10 "s" true false).1.chunks = [] ∧
    get_upload_item (delete_upload_item_run dbC10 "s" true false).1 "s" =
      some ⟨"s", "f", 1, "out", "Uploading", 0⟩ ∧
    (delete_upload_item_run dbC10 "s" true false).2 =
      some "Failed to delete existing upload item" ∧
    ¬ dbC10.chunks = [] := by
  decide

/-- C10 amended: deleting an upload session runs as two separate multi-row
deletes — chunk rows first, then the session row — on the raw connection
with no enclosing transaction: when both statements succeed everything is
deleted; if the session-row delete fails after the chunk delete succeeded,
the chunk rows remain deleted (no rollback); if the chunk delete itself
fails, nothing has been deleted. -/
theorem delete_upload_item_two_steps (db : Db) (upload_id : String) (b : Bool) :
    delete_upload_item_run db upload_id true true =
      ({ db with chunks := db.chunks.filter (fun c => ¬ c.upload_id = upload_id),
                 uploads := db.uploads.filter (fun u => ¬ u.id = upload_id) }, none) ∧
    delete_upload_item_run db upload_id true false =
      ({ db with chunks := db.chunks.filter (fun c => ¬ c.upload_id = upload_id) },
       some "Failed to delete existing upload item") ∧
    delete_upload_item_run db upload_id false b =
      (db, some "Failed to delete existing chunks") := by
  refine ⟨?_, ?_, ?_⟩ <;> simp [delete_upload_item_run]

/-- C1 (code-bug evaluation): uploading a chunk whose persisted bytes hash
to "g" while the caller declared chunkHash "h" is ACCEPTED: the chunk file
stays on disk, a ChunkRecord carrying the declared hash is inserted, and the
handler answers 200 "Chunk uploaded successfully" — because the source's
`if let Err(e) = check_file_hash(..)` only catches the I/O error case and
discards the `Ok(false)` mismatch outcome, so neither the deletion nor the
BadRequest of the claim happens. -/
theorem upload_chunk_accepts_hash_mismatch :
    upload_chunk hashStub "st" stC1 [7] "s" 1 "h" =
      ({ db := { uploads := [⟨"s", "f", 1, "out", "Uploading", 0⟩],
                 chunks := [⟨1, "s", 1, 1, "h"⟩], next_chunk_id := 2 },
         fs := [("st/s/chunk_1", [7])] },
       .okBody "Chunk uploaded successfully") ∧
    ¬ hashStub [7] = "h" := by
  decide

/-- C2 (code-bug evaluation): completing session "s" whose assembled
destination file hashes to "g" ≠ "s" (the session id / content hash) still
succeeds and marks the session Completed — because `merge_chunks` ends with
`check_file_hash(&output_path, &upload_item.id).await?`, whose `?` only
propagates the I/O `Err` case and discards the `Ok(false)` digest
comparison; no `IntegrityFailure` abort exists in the code. -/
theorem complete_upload_skips_final_hash_check :
    complete_upload hashStub "st" stC2 "s" =
      ({ db := { uploads := [⟨"s", "f", 1, "out", "Completed", 0⟩],
                 chunks := [⟨1, "s", 1, 1, "h5"⟩], next_chunk_id := 2 },
         fs := [("out", [7])] },
       .okBody "File uploaded and verified successfully") ∧
    ¬ compute_file_hash hashStub [("out", [7])] "out" = some "s" := by
  decide

/-- C6 counterexample: both chunks of session "s" are valid, but their rows
were inserted in the order 2, 1, and `handle_uploading_upload` reports the
kept chunk numbers in the order the rows come back from the unordered query:
`[2, 1]`, which is not the sorted list `[1, 2]` the claim promises. -/
theorem init_upload_reports_unsorted_chunk_list :
    (init_upload hashStub "st" stC6 "f" 2 "s" 0).2 =
      .okJson ⟨"s", .Uploading, [2, 1], 2⟩ ∧
    ¬ ([2, 1] : List Int).Pairwise (fun a b => a ≤ b) := by
  refine ⟨by decide, by decide⟩

/-- C4: when the sum of the stored chunk sizes differs from the session's
declared total size, CompleteUpload fails with the size-mismatch error
before any chunk byte is copied (the destination has only been
created-and-truncated, its content is empty), the database is untouched and
the session row — hence its Uploading status — is unchanged. -/
theorem complete_upload_size_mismatch (hashFn : Bytes → String)
    (storage_folder : String) (st : St) (file_id : String) (item : UploadItem)
    (hitem : get_upload_item st.db file_id = some item)
    (hsum : ¬ ((get_upload_chunks st.db item.id).map (·.chunk_size)).sum = item.file_size) :
    complete_upload hashFn storage_folder st file_id =
      ({ db := st.db, fs := write_file st.fs item.file_path [] },
       .internalError "Failed to merge chunks") ∧
    (merge_chunks hashFn st item (storage_folder ++ "/" ++ item.id)).2 =
      .error (size_mismatch_msg item.file_size
        ((get_upload_chunks st.db item.id).map (·.chunk_size)).sum) ∧
    read_file (write_file st.fs item.file_path []) item.file_path = some [] ∧
    get_upload_item (complete_upload hashFn storage_folder st file_id).1.db file_id =
      some item := by
  have hmerge := merge_chunks_size_mismatch hashFn st item
    (storage_folder ++ "/" ++ item.id) hsum
  have hmain : complete_upload hashFn storage_folder st file_id =
      ({ db := st.db, fs := write_file st.fs item.file_path [] },
       .internalError "Failed to merge chunks") := by
    rw [complete_upload_eq_of_item hashFn storage_folder st file_id item hitem, hmerge]
  refine ⟨hmain, by rw [hmerge], ?_, ?_⟩
  · rw [read_file_write_file]
    simp
  · rw [hmain]
    exact hitem

/-- Witness for C4: session declaring size 2 whose chunks sum to 1. -/
theorem complete_upload_size_mismatch_witness :
    complete_upload hashStub "st" stC4 "s" =
      ({ db := stC4.db, fs := write_file stC4.fs "out" [] },
       .internalError "Failed to merge chunks") ∧
    get_upload_item (complete_upload hashStub "st" stC4 "s").1.db "s" =
      some ⟨"s", "f", 2, "out", "Uploading", 0⟩ := by
  have h := complete_upload_size_mismatch hashStub "st" stC4 "s"
    ⟨"s", "f", 2, "out", "Uploading", 0⟩ (by decide) (by decide)
  exact ⟨h.1, h.2.2.2⟩

/-- C5: `complete_upload` performs no session-status check and
`merge_chunks` creates (truncating) the destination file before any
validation: re-running CompleteUpload on a session that already completed
successfully (status Completed, chunk rows still stored and summing to the
declared size, temp chunk files already removed) truncates the previously
merged destination file to empty bytes and then fails on the missing chunk
files — the failing call leaves the destination created-and-truncated
rather than unchanged. -/
theorem complete_upload_on_completed_truncates (hashFn : Bytes → String)
    (storage_folder : String) (st : St) (file_id : String) (item : UploadItem)
    (hitem : get_upload_item st.db file_id = some item)
    (hstatus : item.status = "Completed")
    (hsum : ((get_upload_chunks st.db item.id).map (·.chunk_size)).sum = item.file_size)
    (hne : ¬ get_upload_chunks st.db item.id = [])
    (hmissing : ∀ c ∈ get_upload_chunks st.db item.id,
      read_file st.fs (get_chunk_file (storage_folder ++ "/" ++ item.id) c.chunk_number) = none)
    (hout : ∀ c ∈ get_upload_chunks st.db item.id,
      ¬ get_chunk_file (storage_folder ++ "/" ++ item.id) c.chunk_number = item.file_path) :
    (complete_upload hashFn storage_folder st file_id).2 =
      .internalError "Failed to merge chunks" ∧
    (complete_upload hashFn storage_folder st file_id).1 =
      { db := st.db, fs := write_file st.fs item.file_path [] } ∧
    read_file (complete_upload hashFn storage_folder st file_id).1.fs item.file_path =
      some [] := by
  have hperm := sortChunks_perm (get_upload_chunks st.db item.id)
  have hmerge : merge_chunks hashFn st item (storage_folder ++ "/" ++ item.id) =
      ({ st with fs := write_file st.fs item.file_path [] },
       .error "Chunk file not found") := by
    simp only [merge_chunks, sum_sizes_sortChunks]
    rw [if_neg (fun hc => hc hsum)]
    rcases hcs : sortChunks (get_upload_chunks st.db item.id) with _ | ⟨c, rest⟩
    · exact absurd (hcs ▸ hperm).symm.eq_nil hne
    · have hcmem : c ∈ get_upload_chunks st.db item.id :=
        mem_sortChunks.mp (hcs ▸ List.mem_cons_self c rest)
      have hnone : read_file (write_file st.fs item.file_path [])
          (get_chunk_file (storage_folder ++ "/" ++ item.id) c.chunk_number) = none := by
        rw [read_file_write_file, if_neg (hout c hcmem)]
        exact hmissing c hcmem
      simp only [merge_loop, hnone]
  have hmain := complete_upload_eq_of_item hashFn storage_folder st file_id item hitem
  rw [hmerge] at hmain
  refine ⟨by rw [hmain], by rw [hmain], ?_⟩
  rw [hmain, read_file_write_file]
  simp

/-- Witness for C5: after the successful completion of session "s"
(destination holds the merged byte [7]), a second CompleteUpload truncates
the destination to empty and fails. -/
theorem complete_upload_on_completed_truncates_witness :
    (complete_upload hashStub "st" stC5 "s").2 = .internalError "Failed to merge chunks" ∧
    read_file (complete_upload hashStub "st" stC5 "s").1.fs "out" = some [] ∧
    read_file stC5.fs "out" = some [7] := by
  have h := complete_upload_on_completed_truncates hashStub "st" stC5 "s"
    ⟨"s", "f", 1, "out", "Completed", 0⟩ (by decide) (by decide) (by decide)
    (by decide) (by decide) (by decide)
  exact ⟨h.1, h.2.2, by decide⟩

/-- C7: on InitUpload against a Completed session, a destination file that
verifies against the content hash yields a Completed response with uploaded
size equal to the declared file size (state untouched); a failed
verification deletes the session and its chunk rows and creates a fresh
Uploading session (same id = content hash, freshly resolved destination
path), answering Uploading with no chunks and 0 bytes. -/
theorem init_upload_completed_session (hashFn : Bytes → String)
    (storage_folder : String) (st : St) (file_name : String) (file_size : Int)
    (file_hash : String) (now : Nat) (item : UploadItem)
    (hitem : get_upload_item st.db file_hash = some item)
    (hstatus : item.status = "Completed") :
    (check_file hashFn st.fs item.file_path item.id = .Valid →
      init_upload hashFn storage_folder st file_name file_size file_hash now =
        (st, .okJson ⟨item.id, .Completed, [], item.file_size⟩)) ∧
    (∀ reason, check_file hashFn st.fs item.file_path item.id = .Invalid reason →
      (init_upload hashFn storage_folder st file_name file_size file_hash now).2 =
        .okJson ⟨file_hash, .Uploading, [], 0⟩ ∧
      get_upload_chunks
        (init_upload hashFn storage_folder st file_name file_size file_hash now).1.db
        item.id = [] ∧
      get_upload_item
        (init_upload hashFn storage_folder st file_name file_size file_hash now).1.db
        file_hash =
        some ⟨file_hash, file_name, file_size,
          get_available_filename st.fs (storage_folder ++ "/" ++ file_name),
          "Uploading", now⟩ ∧
      (init_upload hashFn storage_folder st file_name file_size file_hash now).1.fs =
        st.fs) := by
  have hid : item.id = file_hash := by
    have h := hitem
    unfold get_upload_item at h
    simpa using List.find?_some h
  have hinit : init_upload hashFn storage_folder st file_name file_size file_hash now =
      handle_completed_upload hashFn st item storage_folder file_name file_size
        file_hash now := by
    simp [init_upload, hitem, hstatus, UploadStatus.fromDbString]
  constructor
  · intro hval
    rw [hinit]
    unfold handle_completed_upload
    rw [hval]
  · intro reason hinv
    rw [hinit]
    unfold handle_completed_upload
    rw [hinv]
    refine ⟨rfl, ?_, ?_, rfl⟩
    · simp [get_upload_chunks, create_upload_item, insert_upload_item,
        delete_upload_item, delete_upload_item_run, List.filter_filter]
    · simp [create_upload_item, insert_upload_item, delete_upload_item,
        delete_upload_item_run, get_upload_item, List.find?_append,
        UploadStatus.toDbString]
      exact Or.inr (fun x hx hne hxf => hne (hxf.trans hid.symm))

/-- Witness for C7: the valid branch at `stC7` (destination hashes back to
the session id "g"), and the invalid branch at `stC5` (destination hashes to
"g" ≠ session id "s"): the stale session's chunk rows are purged and a fresh
Uploading session is created. -/
theorem init_upload_completed_session_witness :
    init_upload hashStub "st" stC7 "f" 1 "g" 0 =
      (stC7, .okJson ⟨"g", .Completed, [], 1⟩) ∧
    (init_upload hashStub "st" stC5 "f" 1 "s" 0).2 = .okJson ⟨"s", .Uploading, [], 0⟩ ∧
    get_upload_chunks (init_upload hashStub "st" stC5 "f" 1 "s" 0).1.db "s" = [] := by
  have hval := (init_upload_completed_session hashStub "st" stC7 "f" 1 "g" 0
    ⟨"g", "f", 1, "out", "Completed", 0⟩ (by decide) (by decide)).1 (by decide)
  have hinv := (init_upload_completed_session hashStub "st" stC5 "f" 1 "s" 0
    ⟨"s", "f", 1, "out", "Completed", 0⟩ (by decide) (by decide)).2
    "Hash mismatch, expected: s, actual:g" (by decide)
  exact ⟨hval, hinv.1, hinv.2.1⟩

/-- C8: UploadChunk is idempotent for a valid chunk: with a fresh (session,
chunkNumber) and bytes matching the declared hash, the first call persists
the chunk and answers success; the second identical call answers "Chunk
already uploaded" leaving database and filesystem exactly unchanged, and
exactly one ChunkRecord for the (session, chunkNumber) pair is stored. -/
theorem upload_chunk_idempotent (hashFn : Bytes → String)
    (storage_folder : String) (st : St) (file : Bytes) (file_id : String)
    (n : Int) (hash : String) (item : UploadItem)
    (hid : ¬ file_id = "") (hn : 0 < n)
    (hitem : get_upload_item st.db file_id = some item)
    (hstatus : item.status = "Uploading")
    (hnochunk : get_chunk_by_number st.db file_id n = none)
    (hhash : hashFn file = hash) :
    (upload_chunk hashFn storage_folder st file file_id n hash).2 =
      .okBody "Chunk uploaded successfully" ∧
    upload_chunk hashFn storage_folder
        (upload_chunk hashFn storage_folder st file file_id n hash).1
        file file_id n hash =
      ((upload_chunk hashFn storage_folder st file file_id n hash).1,
       .okBody "Chunk already uploaded") ∧
    ((upload_chunk hashFn storage_folder st file file_id n hash).1.db.chunks.filter
        (fun c => c.upload_id = file_id ∧ c.chunk_number = n)).length = 1 := by
  have hnotle : ¬ n ≤ 0 := not_le.mpr hn
  have hguard : ¬ (file_id = "" ∨ n ≤ 0) := by
    intro h
    rcases h with h | h
    · exact hid h
    · exact hnotle h
  have hnotdone : ¬ UploadStatus.fromDbString item.status = some .Completed := by
    rw [hstatus]
    decide
  have hread : read_file
      (write_file (delete_file st.fs
        (get_chunk_file (storage_folder ++ "/" ++ file_id) n))
        (get_chunk_file (storage_folder ++ "/" ++ file_id) n) file)
      (get_chunk_file (storage_folder ++ "/" ++ file_id) n) = some file := by
    rw [read_file_write_file]
    simp
  have hr1 : upload_chunk hashFn storage_folder st file file_id n hash =
      ({ db := insert_chunk st.db ⟨0, file_id, n, (file.length : Int), hash⟩,
         fs := write_file (delete_file st.fs
           (get_chunk_file (storage_folder ++ "/" ++ file_id) n))
           (get_chunk_file (storage_folder ++ "/" ++ file_id) n) file },
       .okBody "Chunk uploaded successfully") := by
    unfold upload_chunk
    rw [if_neg hguard, hitem]
    simp only [hnotdone, ite_false]
    rw [hnochunk]
    simp [save_chunk, check_file_hash, compute_file_hash, hread]
  have hchunk2 : get_chunk_by_number (insert_chunk st.db
      ⟨0, file_id, n, (file.length : Int), hash⟩) file_id n =
      some ⟨st.db.next_chunk_id, file_id, n, (file.length : Int), hash⟩ := by
    simp only [get_chunk_by_number, insert_chunk, List.find?_append]
    rw [show st.db.chunks.find?
        (fun c => c.upload_id = file_id ∧ c.chunk_number = n) = none from hnochunk]
    simp
  have hvalid : check_file hashFn
      (write_file (delete_file st.fs
        (get_chunk_file (storage_folder ++ "/" ++ file_id) n))
        (get_chunk_file (storage_folder ++ "/" ++ file_id) n) file)
      (get_chunk_file (storage_folder ++ "/" ++ file_id) n) hash = .Valid := by
    unfold check_file
    rw [hread]
    simp [hhash]
  have hr2 : upload_chunk hashFn storage_folder
      ({ db := insert_chunk st.db ⟨0, file_id, n, (file.length : Int), hash⟩,
         fs := write_file (delete_file st.fs
           (get_chunk_file (storage_folder ++ "/" ++ file_id) n))
           (get_chunk_file (storage_folder ++ "/" ++ file_id) n) file } : St)
      file file_id n hash =
      ({ db := insert_chunk st.db ⟨0, file_id, n, (file.length : Int), hash⟩,
         fs := write_file (delete_file st.fs
           (get_chunk_file (storage_folder ++ "/" ++ file_id) n))
           (get_chunk_file (storage_folder ++ "/" ++ file_id) n) file },
       .okBody "Chunk already uploaded") := by
    unfold upload_chunk
    dsimp only
    rw [if_neg hguard]
    rw [show get_upload_item (insert_chunk st.db
        ⟨0, file_id, n, (file.length : Int), hash⟩) file_id = some item from hitem]
    simp only [hnotdone, ite_false]
    rw [hchunk2]
    dsimp only
    rw [hvalid]
  refine ⟨by rw [hr1], by rw [hr1]; exact hr2, ?_⟩
  rw [hr1]
  simp only [insert_chunk, List.filter_append]
  have hfilter : st.db.chunks.filter
      (fun c => c.upload_id = file_id ∧ c.chunk_number = n) = [] := by
    rw [List.filter_eq_nil_iff]
    intro x hx
    exact List.find?_eq_none.mp hnochunk x hx
  rw [hfilter]
  simp

/-- Witness for C8 at a concrete fresh session and a matching chunk. -/
theorem upload_chunk_idempotent_witness :
    (upload_chunk hashStub "st" stC8 [5] "s" 1 "h5").2 =
      .okBody "Chunk uploaded successfully" ∧
    upload_chunk hashStub "st" (upload_chunk hashStub "st" stC8 [5] "s" 1 "h5").1
        [5] "s" 1 "h5" =
      ((upload_chunk hashStub "st" stC8 [5] "s" 1 "h5").1,
       .okBody "Chunk already uploaded") ∧
    ((upload_chunk hashStub "st" stC8 [5] "s" 1 "h5").1.db.chunks.filter
        (fun c => c.upload_id = "s" ∧ c.chunk_number = 1)).length = 1 :=
  upload_chunk_idempotent hashStub "st" stC8 [5] "s" 1 "h5"
    ⟨"s", "f", 2, "out", "Uploading", 0⟩ (by decide) (by decide) (by decide)
    (by decide) (by decide) (by decide)

/-- C6 (amended): on InitUpload against an Uploading session, every persisted
chunk whose on-disk file is missing or hash-mismatched is deleted (both the
temp file and the database row), every chunk whose file matches is kept (row
and file untouched), and the response has status Uploading with the kept
chunks' numbers IN THE ORDER THE ROWS ARE STORED (the query has no ORDER BY
and the handler does not sort — the list is NOT sorted in general) together
with the sum of their stored byte sizes. -/
theorem init_upload_uploading_resume (hashFn : Bytes → String)
    (storage_folder : String) (st : St) (file_name : String) (file_size : Int)
    (file_hash : String) (now : Nat) (item : UploadItem)
    (hitem : get_upload_item st.db file_hash = some item)
    (hstatus : item.status = "Uploading")
    (hpaths : (get_upload_chunks st.db item.id).Pairwise (fun a b =>
      ¬ get_chunk_file (storage_folder ++ "/" ++ item.id) a.chunk_number =
        get_chunk_file (storage_folder ++ "/" ++ item.id) b.chunk_number))
    (hids : st.db.chunks.Pairwise (fun a b => ¬ a.id = b.id)) :
    (init_upload hashFn storage_folder st file_name file_size file_hash now).2 =
      .okJson ⟨item.id, .Uploading,
        ((get_upload_chunks st.db item.id).filter (fun c =>
          chunk_ok hashFn st.fs (storage_folder ++ "/" ++ item.id) c)).map
            (·.chunk_number),
        (((get_upload_chunks st.db item.id).filter (fun c =>
          chunk_ok hashFn st.fs (storage_folder ++ "/" ++ item.id) c)).map
            (·.chunk_size)).sum⟩ ∧
    (∀ c ∈ get_upload_chunks st.db item.id,
      chunk_ok hashFn st.fs (storage_folder ++ "/" ++ item.id) c = false →
      read_file
        (init_upload hashFn storage_folder st file_name file_size file_hash now).1.fs
        (get_chunk_file (storage_folder ++ "/" ++ item.id) c.chunk_number) = none ∧
      ¬ c ∈ (init_upload hashFn storage_folder st file_name file_size
        file_hash now).1.db.chunks) ∧
    (∀ c ∈ get_upload_chunks st.db item.id,
      chunk_ok hashFn st.fs (storage_folder ++ "/" ++ item.id) c = true →
      read_file
        (init_upload hashFn storage_folder st file_name file_size file_hash now).1.fs
        (get_chunk_file (storage_folder ++ "/" ++ item.id) c.chunk_number) =
        read_file st.fs (get_chunk_file (storage_folder ++ "/" ++ item.id)
          c.chunk_number) ∧
      c ∈ (init_upload hashFn storage_folder st file_name file_size
        file_hash now).1.db.chunks) := by
  have hinit : init_upload hashFn storage_folder st file_name file_size file_hash now =
      handle_uploading_upload hashFn st item storage_folder := by
    simp [init_upload, hitem, hstatus, UploadStatus.fromDbString]
  have hspec := check_and_clean_spec hashFn st (storage_folder ++ "/" ++ item.id)
    (get_upload_chunks st.db item.id) hpaths
  have hfull : init_upload hashFn storage_folder st file_name file_size file_hash now =
      ({ db := { st.db with chunks := st.db.chunks.filter (fun x =>
           ((get_upload_chunks st.db item.id).filter (fun c =>
             !chunk_ok hashFn st.fs (storage_folder ++ "/" ++ item.id) c)).all
               (fun c => ¬ x.id = c.id)) },
         fs := st.fs.filter (fun e =>
           ((get_upload_chunks st.db item.id).filter (fun c =>
             !chunk_ok hashFn st.fs (storage_folder ++ "/" ++ item.id) c)).all
               (fun c => ¬ e.1 = get_chunk_file (storage_folder ++ "/" ++ item.id)
                 c.chunk_number)) },
       .okJson ⟨item.id, .Uploading,
         ((get_upload_chunks st.db item.id).filter (fun c =>
           chunk_ok hashFn st.fs (storage_folder ++ "/" ++ item.id) c)).map
             (·.chunk_number),
         (((get_upload_chunks st.db item.id).filter (fun c =>
           chunk_ok hashFn st.fs (storage_folder ++ "/" ++ item.id) c)).map
             (·.chunk_size)).sum⟩) := by
    rw [hinit]
    simp only [handle_uploading_upload]
    rw [hspec]
  have hsymm_path : Symmetric (fun a b : Chunk =>
      ¬ get_chunk_file (storage_folder ++ "/" ++ item.id) a.chunk_number =
        get_chunk_file (storage_folder ++ "/" ++ item.id) b.chunk_number) :=
    fun a b h hba => h hba.symm
  have hsymm_id : Symmetric (fun a b : Chunk => ¬ a.id = b.id) :=
    fun a b h hba => h hba.symm
  refine ⟨by rw [hfull], ?_, ?_⟩
  · intro c hcrows hbadc
    have hcin : c ∈ (get_upload_chunks st.db item.id).filter (fun c =>
        !chunk_ok hashFn st.fs (storage_folder ++ "/" ++ item.id) c) :=
      List.mem_filter.mpr ⟨hcrows, by simp [hbadc]⟩
    constructor
    · rw [hfull]
      apply read_file_filter_of_key_dropped
      intro e he hkey
      simp only [List.all_eq_false]
      exact ⟨c, hcin, by simp [hkey]⟩
    · rw [hfull]
      intro hmem
      have hall := (List.mem_filter.mp hmem).2
      rw [List.all_eq_true] at hall
      have := hall c hcin
      simp at this
  · intro c hcrows hokc
    have hkeyfact : ∀ c' ∈ (get_upload_chunks st.db item.id).filter (fun c =>
        !chunk_ok hashFn st.fs (storage_folder ++ "/" ++ item.id) c), ¬ c = c' := by
      intro c' hc' heq
      have hbad' : chunk_ok hashFn st.fs (storage_folder ++ "/" ++ item.id) c' = false := by
        have := (List.mem_filter.mp hc').2
        simpa using this
      rw [← heq, hokc] at hbad'
      simp at hbad'
    constructor
    · rw [hfull]
      apply read_file_filter_of_keys_kept
      intro e he hkey
      rw [List.all_eq_true]
      intro c' hc'
      have hcrows' : c' ∈ get_upload_chunks st.db item.id :=
        (List.mem_filter.mp hc').1
      have hne : ¬ get_chunk_file (storage_folder ++ "/" ++ item.id) c.chunk_number =
          get_chunk_file (storage_folder ++ "/" ++ item.id) c'.chunk_number :=
        List.Pairwise.forall hsymm_path hpaths hcrows hcrows' (hkeyfact c' hc')
      simp [hkey, hne]
    · rw [hfull]
      apply List.mem_filter.mpr
      refine ⟨(List.mem_filter.mp hcrows).1, ?_⟩
      rw [List.all_eq_true]
      intro c' hc'
      have hcchunks : c ∈ st.db.chunks := (List.mem_filter.mp hcrows).1
      have hc'chunks : c' ∈ st.db.chunks :=
        (List.mem_filter.mp (List.mem_filter.mp hc').1).1
      have hne : ¬ c.id = c'.id :=
        List.Pairwise.forall hsymm_id hids hcchunks hc'chunks (hkeyfact c' hc')
      simp [hne]

/-- Witness for C6 at `stC6w`: chunks 1 and 2 valid, chunk 3 corrupted —
the response reports chunks [1, 2] with 2 bytes, chunk 3's file and row are
deleted, chunk 1's file survives. -/
theorem init_upload_uploading_resume_witness :
    (init_upload hashStub "st" stC6w "f" 3 "s" 0).2 =
      .okJson ⟨"s", .Uploading, [1, 2], 2⟩ ∧
    read_file (init_upload hashStub "st" stC6w "f" 3 "s" 0).1.fs "st/s/chunk_3" =
      none ∧
    ¬ (⟨3, "s", 3, 1, "h3"⟩ : Chunk) ∈
      (init_upload hashStub "st" stC6w "f" 3 "s" 0).1.db.chunks ∧
    read_file (init_upload hashStub "st" stC6w "f" 3 "s" 0).1.fs "st/s/chunk_1" =
      some [5] := by
  have h := init_upload_uploading_resume hashStub "st" stC6w "f" 3 "s" 0
    ⟨"s", "f", 3, "out", "Uploading", 0⟩ (by decide) (by decide) (by decide) (by decide)
  have hbad := h.2.1 ⟨3, "s", 3, 1, "h3"⟩ (by decide) (by decide)
  have hgood := h.2.2 ⟨1, "s", 1, 1, "h5"⟩ (by decide) (by decide)
  exact ⟨h.1.trans (by decide), hbad.1, hbad.2, hgood.1.trans (by decide)⟩

theorem sortChunks_eq_of_perm (rows rows2 : List Chunk)
    (hperm : List.Perm rows2 rows)
    (hnodup : rows.Pairwise (fun a b => ¬ a.chunk_number = b.chunk_number)) :
    sortChunks rows2 = sortChunks rows := by
  have hsymm : Symmetric (fun a b : Chunk => ¬ a.chunk_number = b.chunk_number) :=
    fun a b h hba => h hba.symm
  have hn2 : rows2.Pairwise (fun a b => ¬ a.chunk_number = b.chunk_number) :=
    (List.Perm.pairwise_iff (fun h hba => h hba.symm) hperm).mpr hnodup
  have hne1 : (sortChunks rows).Pairwise
      (fun a b => ¬ a.chunk_number = b.chunk_number) :=
    (List.Perm.pairwise_iff (fun h hba => h hba.symm) (sortChunks_perm rows)).mpr hnodup
  have hne2 : (sortChunks rows2).Pairwise
      (fun a b => ¬ a.chunk_number = b.chunk_number) :=
    (List.Perm.pairwise_iff (fun h hba => h hba.symm) (sortChunks_perm rows2)).mpr hn2
  have hlt1 : (sortChunks rows).Pairwise
      (fun a b => a.chunk_number < b.chunk_number) :=
    ((sortChunks_sorted rows).and hne1).imp
      (fun h => lt_of_le_of_ne (h.1 : _ ≤ _) h.2)
  have hlt2 : (sortChunks rows2).Pairwise
      (fun a b => a.chunk_number < b.chunk_number) :=
    ((sortChunks_sorted rows2).and hne2).imp
      (fun h => lt_of_le_of_ne (h.1 : _ ≤ _) h.2)
  haveI : IsAntisymm Chunk (fun a b => a.chunk_number < b.chunk_number) :=
    ⟨fun a b h1 h2 => absurd h2 (not_lt.mpr (le_of_lt h1))⟩
  exact List.eq_of_perm_of_sorted
    ((sortChunks_perm rows2).trans (hperm.trans (sortChunks_perm rows).symm)) hlt2 hlt1

theorem list_sum_natCast (l : List Nat) :
    ((l.sum : Nat) : Int) = (l.map (fun n : Nat => (n : Int))).sum := by
  induction l with
  | nil => simp
  | cons a l ih => simp [ih]

theorem merge_loop_spec (fs0 : FS) (d out : String) (expected : Int)
    (cs : List Chunk) (acc : Bytes)
    (hfiles : ∀ c ∈ cs, ∃ data,
      read_file fs0 (get_chunk_file d c.chunk_number) = some data ∧
      (data.length : Int) = c.chunk_size)
    (hout : ∀ c ∈ cs, ¬ get_chunk_file d c.chunk_number = out)
    (hbound : (acc.length : Int) + (cs.map (·.chunk_size)).sum ≤ expected) :
    merge_loop (write_file fs0 out acc) d out expected cs (acc.length : Int) =
      (write_file fs0 out (acc ++ (cs.map (chunk_bytes fs0 d)).flatten),
       .ok ((acc.length : Int) + (cs.map (·.chunk_size)).sum)) := by
  induction cs generalizing acc with
  | nil => simp [merge_loop]
  | cons c rest ih =>
    obtain ⟨data, hdata, hlen⟩ := hfiles c (List.mem_cons_self c rest)
    have hrest := fun c' h' => hfiles c' (List.mem_cons_of_mem c h')
    have hout_rest := fun c' h' => hout c' (List.mem_cons_of_mem c h')
    have hread_c : read_file (write_file fs0 out acc)
        (get_chunk_file d c.chunk_number) = some data := by
      rw [read_file_write_file, if_neg (hout c (List.mem_cons_self c rest))]
      exact hdata
    have hsizes_nonneg : 0 ≤ (rest.map (·.chunk_size)).sum := by
      apply List.sum_nonneg
      intro x hx
      obtain ⟨c', hc', hxc⟩ := List.mem_map.mp hx
      obtain ⟨data', _, hlen'⟩ := hrest c' hc'
      rw [← hxc, ← hlen']
      exact Int.natCast_nonneg _
    have hboundc : (acc.length : Int) + c.chunk_size +
        (rest.map (·.chunk_size)).sum ≤ expected := by
      simpa [add_assoc] using hbound
    have hnotgt : ¬ expected < (acc.length : Int) + (data.length : Int) := by
      rw [hlen]
      omega
    have hro : read_file (write_file fs0 out acc) out = some acc := by
      rw [read_file_write_file]
      simp
    have hcast : (acc.length : Int) + (data.length : Int) =
        ((acc ++ data).length : Int) := by
      simp [List.length_append]
    have hbound' : (((acc ++ data).length : Int)) +
        (rest.map (·.chunk_size)).sum ≤ expected := by
      rw [← hcast, hlen]
      omega
    simp only [merge_loop, hread_c]
    rw [if_neg hnotgt, hro]
    simp only [Option.getD_some]
    rw [write_file_write_file, hcast, ih (acc ++ data) hrest hout_rest hbound']
    refine congrArg₂ Prod.mk ?_ ?_
    · simp [chunk_bytes, hdata, List.append_assoc]
    · rw [← hcast, hlen]
      simp only [List.map_cons, List.sum_cons]
      congr 1
      omega

theorem merge_chunks_ok (hashFn : Bytes → String) (st : St) (item : UploadItem)
    (d : String)
    (hsum : ((get_upload_chunks st.db item.id).map (·.chunk_size)).sum =
      item.file_size)
    (hfiles : ∀ c ∈ get_upload_chunks st.db item.id, ∃ data,
      read_file st.fs (get_chunk_file d c.chunk_number) = some data ∧
      (data.length : Int) = c.chunk_size)
    (hout : ∀ c ∈ get_upload_chunks st.db item.id,
      ¬ get_chunk_file d c.chunk_number = item.file_path) :
    merge_chunks hashFn st item d =
      ({ st with
           fs := write_file st.fs item.file_path
                   (((sortChunks (get_upload_chunks st.db item.id)).map
                     (chunk_bytes st.fs d)).flatten) },
       .ok item.file_path) := by
  have hfiles' : ∀ c ∈ sortChunks (get_upload_chunks st.db item.id), ∃ data,
      read_file st.fs (get_chunk_file d c.chunk_number) = some data ∧
      (data.length : Int) = c.chunk_size :=
    fun c hc => hfiles c (mem_sortChunks.mp hc)
  have hout' : ∀ c ∈ sortChunks (get_upload_chunks st.db item.id),
      ¬ get_chunk_file d c.chunk_number = item.file_path :=
    fun c hc => hout c (mem_sortChunks.mp hc)
  have hbound : ((([] : Bytes).length : Int)) +
      ((sortChunks (get_upload_chunks st.db item.id)).map (·.chunk_size)).sum ≤
      item.file_size := by
    rw [sum_sizes_sortChunks, hsum]
    simp
  have hloop := merge_loop_spec st.fs d item.file_path item.file_size
    (sortChunks (get_upload_chunks st.db item.id)) [] hfiles' hout' hbound
  simp only [List.length_nil, Nat.cast_zero, List.nil_append, zero_add] at hloop
  have hnotmis : ¬ ¬ ((sortChunks (get_upload_chunks st.db item.id)).map
      (·.chunk_size)).sum = item.file_size := by
    rw [sum_sizes_sortChunks]
    exact not_not_intro hsum
  have hch : check_file_hash hashFn
      (write_file st.fs item.file_path
        (((sortChunks (get_upload_chunks st.db item.id)).map
          (chunk_bytes st.fs d)).flatten))
      item.file_path item.id =
      some (decide (hashFn (((sortChunks (get_upload_chunks st.db item.id)).map
        (chunk_bytes st.fs d)).flatten) = item.id)) := by
    simp [check_file_hash, compute_file_hash, read_file_write_file]
  simp only [merge_chunks]
  rw [if_neg hnotmis, hloop]
  dsimp only
  rw [if_neg hnotmis, hch]

/-- C3: for a session whose stored chunk sizes sum to the declared total and
whose chunk files are all present with sizes matching their records,
CompleteUpload succeeds and writes a destination file that is exactly the
concatenation of the chunk files in ascending chunk-number order, with
exactly the declared size; the merge order is the sorted permutation of the
stored rows, and any permutation of the rows (any upload order) sorts to the
same list, so the output is independent of upload order. -/
theorem complete_upload_concatenates_in_order (hashFn : Bytes → String)
    (storage_folder : String) (st : St) (file_id : String) (item : UploadItem)
    (hitem : get_upload_item st.db file_id = some item)
    (hsum : ((get_upload_chunks st.db item.id).map (·.chunk_size)).sum =
      item.file_size)
    (hfiles : ∀ c ∈ get_upload_chunks st.db item.id, ∃ data,
      read_file st.fs (get_chunk_file (storage_folder ++ "/" ++ item.id)
        c.chunk_number) = some data ∧
      (data.length : Int) = c.chunk_size)
    (hout : ∀ c ∈ get_upload_chunks st.db item.id,
      ¬ get_chunk_file (storage_folder ++ "/" ++ item.id) c.chunk_number =
        item.file_path)
    (hkeep : ¬ ((storage_folder ++ "/" ++ item.id) ++ "/").data <+:
      item.file_path.data)
    (hnodup : (get_upload_chunks st.db item.id).Pairwise
      (fun a b => ¬ a.chunk_number = b.chunk_number)) :
    (complete_upload hashFn storage_folder st file_id).2 =
      .okBody "File uploaded and verified successfully" ∧
    read_file (complete_upload hashFn storage_folder st file_id).1.fs
        item.file_path =
      some (((sortChunks (get_upload_chunks st.db item.id)).map
        (chunk_bytes st.fs (storage_folder ++ "/" ++ item.id))).flatten) ∧
    (((((sortChunks (get_upload_chunks st.db item.id)).map
      (chunk_bytes st.fs (storage_folder ++ "/" ++ item.id))).flatten).length : Int)) =
      item.file_size ∧
    (sortChunks (get_upload_chunks st.db item.id)).Pairwise chunkLE ∧
    List.Perm (sortChunks (get_upload_chunks st.db item.id))
      (get_upload_chunks st.db item.id) ∧
    (∀ rows2, List.Perm rows2 (get_upload_chunks st.db item.id) →
      sortChunks rows2 = sortChunks (get_upload_chunks st.db item.id)) := by
  have hmerge := merge_chunks_ok hashFn st item (storage_folder ++ "/" ++ item.id)
    hsum hfiles hout
  have hcu : complete_upload hashFn storage_folder st file_id =
      ({ db := update_upload_item st.db item.id UploadStatus.Completed.toDbString,
         fs := remove_dir_all
           (write_file st.fs item.file_path
             (((sortChunks (get_upload_chunks st.db item.id)).map
               (chunk_bytes st.fs (storage_folder ++ "/" ++ item.id))).flatten))
           (storage_folder ++ "/" ++ item.id) },
       .okBody "File uploaded and verified successfully") := by
    rw [complete_upload_eq_of_item hashFn storage_folder st file_id item hitem, hmerge]
  refine ⟨by rw [hcu], ?_, ?_, sortChunks_sorted _, sortChunks_perm _,
    fun rows2 h2 => sortChunks_eq_of_perm (get_upload_chunks st.db item.id) rows2
      h2 hnodup⟩
  · rw [hcu]
    dsimp only
    rw [read_file_remove_dir_all _ _ _ hkeep, read_file_write_file]
    simp
  · have hptwise : ∀ c ∈ sortChunks (get_upload_chunks st.db item.id),
        ((chunk_bytes st.fs (storage_folder ++ "/" ++ item.id) c).length : Int) =
          c.chunk_size := by
      intro c hc
      obtain ⟨data, hd, hl⟩ := hfiles c (mem_sortChunks.mp hc)
      rw [chunk_bytes, hd]
      simpa using hl
    rw [List.length_flatten, List.map_map, list_sum_natCast, List.map_map]
    simp only [Function.comp_def]
    rw [List.map_congr_left hptwise, sum_sizes_sortChunks]
    exact hsum

/-- Witness for C3 at `stC3`: chunks of sizes 2 and 1 uploaded out of order
merge to the 3-byte concatenation `[5, 6, 6]` in chunk-number order. -/
theorem complete_upload_concatenates_in_order_witness :
    (complete_upload hashStub "st" stC3 "s").2 =
      .okBody "File uploaded and verified successfully" ∧
    read_file (complete_upload hashStub "st" stC3 "s").1.fs "out" =
      some [5, 6, 6] := by
  have h := complete_upload_concatenates_in_order hashStub "st" stC3 "s"
    ⟨"s", "f", 3, "out", "Uploading", 0⟩ (by decide) (by decide) ?hf
    (by decide) (by decide) (by decide)
  case hf =>
    intro c hc
    have hc' : c = ⟨1, "s", 2, 2, "h66"⟩ ∨ c = ⟨2, "s", 1, 1, "h5"⟩ := by
      simpa [get_upload_chunks, stC3] using hc
    rcases hc' with rfl | rfl
    · exact ⟨[6, 6], by decide, by decide⟩
    · exact ⟨[5], by decide, by decide⟩
  exact ⟨h.1, h.2.1.trans (by decide)⟩

end ShareRs
